import Mathlib

/-!
Verification of the conversation-store and turn-orchestration logic of a
Telegram GPT bot (source: `bot.py`).

The SQLite table `memory(user_id, role, content)` is modelled as a list of
rows in insertion order (oldest first).  `ORDER BY ROWID DESC` over the live
rows coincides with reverse insertion order, because every `INSERT` receives
a rowid strictly larger than all live rowids, and rows are only ever deleted
in bulk per user.  Store operations are translated row for row from the
source:

* `save_memory`   : `INSERT INTO memory VALUES(?,?,?)` — append one row.
* `load_memory`   : `SELECT role, content … ORDER BY ROWID DESC LIMIT ?`,
  then `rows.reverse()` — the trailing window, oldest first.  The Python
  default `limit=20` is written explicitly at every call site here.
* `clear_memory`  : `DELETE FROM memory WHERE user_id=?`.

`ask_gpt` wraps its whole body in `try: … except Exception: return
"❌ Ошибка GPT. Проверь OPENAI_API_KEY"`; the completion-service call and the
two `save_memory` calls can raise, so the embedding takes both as fallible
functions (`Except String …`, `.error` = raised exception) and the match
structure mirrors the `try`/`except`: every raise inside the body yields the
placeholder string, and `ask_gpt` itself always returns normally.
-/

namespace TelegramGPTBot

/-- One message as returned by `load_memory`: the dict
`{"role": r[0], "content": r[1]}`. -/
structure Message where
  role : String
  content : String
deriving DecidableEq, Repr, Inhabited

/-- One row of the `memory` table: columns `user_id`, `role`, `content`. -/
structure Row where
  user_id : String
  role : String
  content : String
deriving DecidableEq, Repr, Inhabited

/-- The `memory` table, live rows in insertion order (oldest first). -/
abbrev Store := List Row

/-- Projection of a row to the role/content dict shape of `load_memory`. -/
def rowMsg (r : Row) : Message := ⟨r.role, r.content⟩

/-- `save_memory(user_id, role, content)`: `INSERT INTO memory VALUES(?,?,?)`
followed by `commit` — appends one row at the end (largest rowid). -/
def save_memory (s : Store) (user_id role content : String) : Store :=
  s ++ [⟨user_id, role, content⟩]

/-- The rows of one user, in insertion order (`WHERE user_id=?`). -/
def userRows (s : Store) (user_id : String) : List Row :=
  s.filter (fun r => r.user_id = user_id)

/-- `load_memory(user_id, limit)`: select the user rows, newest first
(`ORDER BY ROWID DESC`), keep `LIMIT limit` of them, then
`rows.reverse()` and map each row to its role/content dict.
In the source `limit` defaults to `20`. -/
def load_memory (s : Store) (user_id : String) (limit : Nat) : List Message :=
  (((userRows s user_id).reverse.take limit).reverse).map rowMsg

/-- `clear_memory(user_id)`: `DELETE FROM memory WHERE user_id=?`. -/
def clear_memory (s : Store) (user_id : String) : Store :=
  s.filter (fun r => r.user_id ≠ user_id)

/-- The full per-user history as messages, oldest first. -/
def userHistory (s : Store) (user_id : String) : List Message :=
  (userRows s user_id).map rowMsg

/-- The fixed user-facing error placeholder returned by the
`except Exception` branch of `ask_gpt`. -/
def GPT_ERROR : String := "❌ Ошибка GPT. Проверь OPENAI_API_KEY"

/-- `ask_gpt(user_id, text)`.  `save` embeds `save_memory` as a fallible
operation (`.error` = the sqlite call raised; the store is then unchanged,
since every successful append commits before returning) and `gpt` embeds
`client.chat.completions.create` (`.error` = raise or timeout).  The match
cascade is the `try`/`except Exception` of the source: any raise anywhere in
the body is caught and turned into the `GPT_ERROR` placeholder, with the
store left exactly as the already-committed appends made it. -/
def ask_gpt (save : Store → String → String → String → Except String Store)
    (gpt : List Message → Except String String)
    (s : Store) (user_id text : String) : Store × String :=
  match save s user_id "user" text with
  | .error _ => (s, GPT_ERROR)
  | .ok s1 =>
    match gpt (load_memory s1 user_id 20) with
    | .error _ => (s1, GPT_ERROR)
    | .ok reply =>
      match save s1 user_id "assistant" reply with
      | .error _ => (s1, GPT_ERROR)
      | .ok s2 => (s2, reply)

/-- The real `save_memory`, which does not raise: used to instantiate
`ask_gpt` on the success paths. -/
def save_ok (s : Store) (user_id role content : String) : Except String Store :=
  .ok (save_memory s user_id role content)

/-- Outcome of `tts_handler` as visible to the caller. -/
inductive TtsReply where
  | noContent
  | synthError
  | voice
deriving DecidableEq, Repr

/-- `tts_handler`: load the window (default limit 20); if empty, reply
"Нет ответа" (`noContent`) without calling the synthesis service; otherwise
submit `memory[-1]["content"]` — the content of the LAST window entry,
whatever its role — to `text_to_voice`.  `synth` models whether the
synthesis call succeeds.  The second component is the list of texts
submitted to the speech-synthesis service during the call. -/
def tts_handler (synth : String → Bool) (s : Store) (user_id : String) :
    TtsReply × List String :=
  let memory := load_memory s user_id 20
  if h : memory = [] then (.noContent, [])
  else
    let last := (memory.getLast h).content
    if synth last then (.voice, [last]) else (.synthError, [last])

/-- Replay a list of rows as appends (`save_memory` calls), oldest first. -/
def replay (s : Store) (ops : List Row) : Store :=
  ops.foldl (fun t r => save_memory t r.user_id r.role r.content) s

/-- Append a list of messages for one fixed user. -/
def appendAll (s : Store) (user_id : String) (ms : List Message) : Store :=
  ms.foldl (fun t m => save_memory t user_id m.role m.content) s

/-! ### Basic store lemmas -/

theorem reverse_take_reverse (l : List α) (k : Nat) :
    (l.reverse.take k).reverse = l.drop (l.length - k) := by
  rw [← List.rtake_eq_reverse_take_reverse]
  rfl

theorem load_memory_eq_drop (s : Store) (uid : String) (limit : Nat) :
    load_memory s uid limit
      = (userHistory s uid).drop ((userHistory s uid).length - limit) := by
  simp [load_memory, userHistory, reverse_take_reverse, List.map_drop]

theorem userRows_save_same (s : Store) (uid role content : String) :
    userRows (save_memory s uid role content) uid
      = userRows s uid ++ [⟨uid, role, content⟩] := by
  simp [userRows, save_memory, List.filter_append]

theorem userRows_save_other (s : Store) (uid v role content : String)
    (h : uid ≠ v) :
    userRows (save_memory s uid role content) v = userRows s v := by
  simp [userRows, save_memory, List.filter_append, h]

theorem userHistory_save_same (s : Store) (uid role content : String) :
    userHistory (save_memory s uid role content) uid
      = userHistory s uid ++ [⟨role, content⟩] := by
  simp [userHistory, userRows_save_same, rowMsg]

theorem userRows_clear_self (s : Store) (uid : String) :
    userRows (clear_memory s uid) uid = [] := by
  simp [userRows, clear_memory, List.filter_filter]

theorem load_memory_of_userRows_nil (s : Store) (uid : String) (limit : Nat)
    (h : userRows s uid = []) : load_memory s uid limit = [] := by
  simp [load_memory, h]

theorem getLast?_drop_of_lt (l : List α) (k : Nat) (h : k < l.length) :
    (l.drop k).getLast? = l.getLast? := by
  have hne : l.drop k ≠ [] := by
    intro hnil
    have := List.length_drop k l
    rw [hnil] at this
    simp at this
    omega
  conv_rhs => rw [← List.take_append_drop k l]
  exact (List.getLast?_append_of_ne_nil (l.take k) hne).symm

theorem load_memory_length (s : Store) (uid : String) (limit : Nat) :
    (load_memory s uid limit).length = min (userHistory s uid).length limit := by
  rw [load_memory_eq_drop, List.length_drop]
  omega

theorem load_memory_eq_nil_iff (s : Store) (uid : String) (limit : Nat)
    (hl : 0 < limit) : load_memory s uid limit = [] ↔ userHistory s uid = [] := by
  constructor
  · intro h
    have hlen := load_memory_length s uid limit
    rw [h] at hlen
    simp at hlen
    exact List.eq_nil_of_length_eq_zero (by omega)
  · intro h
    rw [load_memory_eq_drop, h]
    simp

theorem userHistory_appendAll (s : Store) (uid : String) (ms : List Message) :
    userHistory (appendAll s uid ms) uid = userHistory s uid ++ ms := by
  induction ms generalizing s with
  | nil => simp [appendAll]
  | cons m ms ih =>
    show userHistory (appendAll (save_memory s uid m.role m.content) uid ms) uid = _
    rw [ih, userHistory_save_same]
    simp

theorem userRows_replay_other (t : Store) (ops : List Row) (uid : String)
    (hops : ∀ r ∈ ops, r.user_id ≠ uid) :
    userRows (replay t ops) uid = userRows t uid := by
  induction ops generalizing t with
  | nil => rfl
  | cons r ops ih =>
    show userRows (replay (save_memory t r.user_id r.role r.content) ops) uid = _
    rw [ih _ (fun x hx => hops x (List.mem_cons_of_mem r hx)),
      userRows_save_other _ _ _ _ _ (hops r (List.mem_cons_self r ops))]

/-! ### Claim theorems -/

/-- C1: for every store (hence for every sequence of appends), user id and
limit, `load_memory` returns exactly the `min N limit` most recently inserted
messages of that user, in insertion order (it is the trailing slice of the
per-user history obtained by dropping all but the last `limit` entries, and
its length is `min N limit`); `appendAll` shows that a sequence of `N`
appends for a user extends that user's history by exactly that sequence, so
with the default limit 20 and `N > 20` appends from empty the window is the
most recent 20, and with `limit = N` it is all `N` messages in order. -/
theorem load_memory_window (s : Store) (uid : String) (limit : Nat) :
    load_memory s uid limit
      = (userHistory s uid).drop ((userHistory s uid).length - limit)
    ∧ (load_memory s uid limit).length = min (userHistory s uid).length limit
    ∧ (∀ ms : List Message,
        userHistory (appendAll s uid ms) uid = userHistory s uid ++ ms) :=
  ⟨load_memory_eq_drop s uid limit, load_memory_length s uid limit,
    userHistory_appendAll s uid⟩

theorem load_memory_save_of_empty (s : Store) (uid role content : String)
    (h : userRows s uid = []) :
    load_memory (save_memory s uid role content) uid 20 = [⟨role, content⟩] := by
  have hh : userHistory s uid = [] := by simp [userHistory, h]
  rw [load_memory_eq_drop, userHistory_save_same, hh]
  simp

/-- C2: a successful turn from an empty history for the user appends the
input as a role `user` message, invokes the completion service with the
window `[⟨"user", text⟩]` — exactly the one just-appended message — appends
the reply as role `assistant`, returns the reply text, and leaves exactly
those two messages, user message first, as the stored history of the user. -/
theorem ask_gpt_success_from_empty (s : Store) (uid text reply : String)
    (gpt : List Message → Except String String)
    (hempty : userRows s uid = [])
    (hgpt : gpt [⟨"user", text⟩] = .ok reply) :
    load_memory (save_memory s uid "user" text) uid 20 = [⟨"user", text⟩]
    ∧ (ask_gpt save_ok gpt s uid text).2 = reply
    ∧ userHistory (ask_gpt save_ok gpt s uid text).1 uid
        = [⟨"user", text⟩, ⟨"assistant", reply⟩]
    ∧ (ask_gpt save_ok gpt s uid text).1
        = save_memory (save_memory s uid "user" text) uid "assistant" reply := by
  have hw := load_memory_save_of_empty s uid "user" text hempty
  have hh : userHistory s uid = [] := by simp [userHistory, hempty]
  have hrun : ask_gpt save_ok gpt s uid text
      = (save_memory (save_memory s uid "user" text) uid "assistant" reply, reply) := by
    simp only [ask_gpt, save_ok, hw, hgpt]
  refine ⟨hw, by rw [hrun], ?_, by rw [hrun]⟩
  rw [hrun]
  show userHistory (save_memory (save_memory s uid "user" text) uid "assistant" reply) uid = _
  rw [userHistory_save_same, userHistory_save_same, hh]
  simp

/-- C2 witness: the scenario of the spec at concrete inputs. -/
theorem ask_gpt_success_from_empty_witness :
    (ask_gpt save_ok (fun _ => Except.ok "Hello!") [] "u" "Hi").2 = "Hello!"
    ∧ userHistory (ask_gpt save_ok (fun _ => Except.ok "Hello!") [] "u" "Hi").1 "u"
        = [⟨"user", "Hi"⟩, ⟨"assistant", "Hello!"⟩] := by
  have h := ask_gpt_success_from_empty [] "u" "Hi" "Hello!"
    (fun _ => Except.ok "Hello!") rfl rfl
  exact ⟨h.2.1, h.2.2.1⟩

/-- C3: if the completion-service call raises or times out, `ask_gpt`
returns the fixed error placeholder (a nonempty string, never a null or
empty value) and appends no assistant message for that turn: the resulting
store is exactly the one after the user-message append, and its assistant
rows are unchanged. -/
theorem ask_gpt_failure_placeholder (s : Store) (uid text err : String)
    (gpt : List Message → Except String String)
    (hfail : gpt (load_memory (save_memory s uid "user" text) uid 20) = .error err) :
    (ask_gpt save_ok gpt s uid text).2 = GPT_ERROR
    ∧ GPT_ERROR ≠ ""
    ∧ (ask_gpt save_ok gpt s uid text).1 = save_memory s uid "user" text
    ∧ (ask_gpt save_ok gpt s uid text).1.filter (fun r => r.role = "assistant")
        = s.filter (fun r => r.role = "assistant") := by
  have hrun : ask_gpt save_ok gpt s uid text
      = (save_memory s uid "user" text, GPT_ERROR) := by
    simp only [ask_gpt, save_ok, hfail]
  refine ⟨by rw [hrun], by decide, by rw [hrun], ?_⟩
  rw [hrun]
  simp [save_memory, List.filter_append]

/-- C3 witness: a concrete raising completion call. -/
theorem ask_gpt_failure_placeholder_witness :
    (ask_gpt save_ok (fun _ => Except.error "timeout") [] "u" "Hi").2 = GPT_ERROR :=
  (ask_gpt_failure_placeholder [] "u" "Hi" "timeout"
    (fun _ => Except.error "timeout") rfl).1

/-- C10: a failed turn is not atomic — after a completion-service failure
the already-appended user message stays persisted (the user's history gains
exactly it, with no rollback) and no assistant or placeholder row is added:
the store grows by exactly one row, the role-`user` row of the input. -/
theorem ask_gpt_failed_turn_keeps_user_row (s : Store) (uid text err : String)
    (gpt : List Message → Except String String)
    (hfail : gpt (load_memory (save_memory s uid "user" text) uid 20) = .error err) :
    userHistory (ask_gpt save_ok gpt s uid text).1 uid
      = userHistory s uid ++ [⟨"user", text⟩]
    ∧ (ask_gpt save_ok gpt s uid text).1.length = s.length + 1
    ∧ (∀ r, r ∈ (ask_gpt save_ok gpt s uid text).1 ↔
        (r ∈ s ∨ r = ⟨uid, "user", text⟩)) := by
  have hrun : ask_gpt save_ok gpt s uid text
      = (save_memory s uid "user" text, GPT_ERROR) := by
    simp only [ask_gpt, save_ok, hfail]
  refine ⟨?_, ?_, ?_⟩
  · rw [hrun]
    exact userHistory_save_same s uid "user" text
  · rw [hrun]
    simp [save_memory]
  · intro r
    rw [hrun]
    simp [save_memory]

/-- C10 witness: a failed turn on a store holding another user's row. -/
theorem ask_gpt_failed_turn_keeps_user_row_witness :
    userHistory (ask_gpt save_ok (fun _ => Except.error "boom")
        [⟨"v", "user", "x"⟩] "u" "Hello").1 "u" = [⟨"user", "Hello"⟩] := by
  have h := (ask_gpt_failed_turn_keeps_user_row [⟨"v", "user", "x"⟩] "u" "Hello"
    "boom" (fun _ => Except.error "boom") rfl).1
  rw [h]
  decide

/-- C4 counterexample: a storage error raised by the `save_memory` append
inside `ask_gpt` does NOT propagate to the caller — the broad
`except Exception` catches it and `ask_gpt` returns the user-facing
placeholder string, here at the concrete input `user_id = "u"`,
`text = "Hi"`, with an append that raises a disk error and a completion
service that would have answered. -/
theorem ask_gpt_storage_error_swallowed_cex :
    ask_gpt (fun _ _ _ _ => Except.error "sqlite3 disk error")
        (fun _ => Except.ok "Hello!") [] "u" "Hi"
      = ([], GPT_ERROR) := rfl

/-- C4 amended: a storage error raised by either `save_memory` append inside
`ask_gpt` is caught at the orchestrator boundary by the catch-all handler
and converted to the user-facing placeholder string; it never propagates to
the caller of `ask_gpt`. -/
theorem ask_gpt_storage_error_swallowed
    (save : Store → String → String → String → Except String Store)
    (gpt : List Message → Except String String) (s : Store) (uid text : String) :
    (∀ e, save s uid "user" text = .error e →
      ask_gpt save gpt s uid text = (s, GPT_ERROR))
    ∧ (∀ s1 reply e, save s uid "user" text = .ok s1 →
        gpt (load_memory s1 uid 20) = .ok reply →
        save s1 uid "assistant" reply = .error e →
        ask_gpt save gpt s uid text = (s1, GPT_ERROR)) := by
  constructor
  · intro e he
    simp only [ask_gpt, he]
  · intro s1 reply e h1 h2 h3
    simp only [ask_gpt, h1, h2, h3]

/-- C4 amended witness: the second append raises, the first succeeds. -/
theorem ask_gpt_storage_error_swallowed_witness :
    ask_gpt (fun t u r c => if r = "assistant" then Except.error "disk full"
        else Except.ok (save_memory t u r c))
      (fun _ => Except.ok "Ok") [] "u" "Hey"
      = (save_memory [] "u" "user" "Hey", GPT_ERROR) :=
  (ask_gpt_storage_error_swallowed
    (fun t u r c => if r = "assistant" then Except.error "disk full"
      else Except.ok (save_memory t u r c))
    (fun _ => Except.ok "Ok") [] "u" "Hey").2
    (save_memory [] "u" "user" "Hey") "Ok" "disk full" rfl rfl rfl

/-- C5: the sequence handed to the completion service inside `ask_gpt` is
exactly the trailing window read back after appending the user input —
`ask_gpt` depends on `gpt` only through its value at that window — and that
window has at most 20 messages, ends with the just-appended user message,
and is a contiguous suffix of the stored per-user history (so no
system-prompt message is injected and nothing beyond the window count is
dropped). -/
theorem ask_gpt_context_window (s : Store) (uid text : String)
    (g1 g2 : List Message → Except String String)
    (hagree : g1 (load_memory (save_memory s uid "user" text) uid 20)
            = g2 (load_memory (save_memory s uid "user" text) uid 20)) :
    ask_gpt save_ok g1 s uid text = ask_gpt save_ok g2 s uid text
    ∧ (load_memory (save_memory s uid "user" text) uid 20).length ≤ 20
    ∧ (load_memory (save_memory s uid "user" text) uid 20).getLast?
        = some ⟨"user", text⟩
    ∧ load_memory (save_memory s uid "user" text) uid 20
        <:+ userHistory (save_memory s uid "user" text) uid := by
  refine ⟨?_, ?_, ?_, ?_⟩
  · simp only [ask_gpt, save_ok, hagree]
  · have := load_memory_length (save_memory s uid "user" text) uid 20
    omega
  · rw [load_memory_eq_drop, getLast?_drop_of_lt, userHistory_save_same]
    · exact List.getLast?_concat _
    · rw [userHistory_save_same]
      simp only [List.length_append, List.length_singleton]
      omega
  · rw [load_memory_eq_drop]
    exact List.drop_suffix _ _

/-- C5 witness: two completion functions agreeing on the window produce the
same turn, at a concrete one-row store. -/
theorem ask_gpt_context_window_witness :
    ask_gpt save_ok (fun _ => Except.ok "A") [⟨"u", "user", "old"⟩] "u" "new"
      = ask_gpt save_ok (fun ms => if ms = [] then Except.error "e"
          else Except.ok "A") [⟨"u", "user", "old"⟩] "u" "new"
    ∧ (load_memory (save_memory [⟨"u", "user", "old"⟩] "u" "user" "new")
        "u" 20).getLast? = some ⟨"user", "new"⟩ := by
  have h := ask_gpt_context_window [⟨"u", "user", "old"⟩] "u" "new"
    (fun _ => Except.ok "A")
    (fun ms => if ms = [] then Except.error "e" else Except.ok "A")
    rfl
  exact ⟨h.1, h.2.2.1⟩

/-- C6: erasing a user empties that user's window for every limit, the
window stays empty under any further appends for other users, and it becomes
non-empty again exactly when a new message is appended for that user. -/
theorem clear_then_window_empty (s : Store) (uid : String) (limit : Nat)
    (ops : List Row) (hops : ∀ r ∈ ops, r.user_id ≠ uid) :
    load_memory (clear_memory s uid) uid limit = []
    ∧ load_memory (replay (clear_memory s uid) ops) uid limit = []
    ∧ (∀ role content, load_memory
        (save_memory (replay (clear_memory s uid) ops) uid role content)
          uid 20 ≠ []) := by
  have h1 : userRows (clear_memory s uid) uid = [] := userRows_clear_self s uid
  have h2 : userRows (replay (clear_memory s uid) ops) uid = [] := by
    rw [userRows_replay_other _ _ _ hops, h1]
  refine ⟨load_memory_of_userRows_nil _ _ _ h1,
    load_memory_of_userRows_nil _ _ _ h2, ?_⟩
  intro role content
  rw [load_memory_save_of_empty _ _ _ _ h2]
  simp

/-- C6 witness: erase a two-message history, then append for another user. -/
theorem clear_then_window_empty_witness :
    load_memory (clear_memory [⟨"u", "user", "a"⟩, ⟨"u", "assistant", "b"⟩] "u")
      "u" 20 = []
    ∧ load_memory (replay
        (clear_memory [⟨"u", "user", "a"⟩, ⟨"u", "assistant", "b"⟩] "u")
        [⟨"w", "user", "c"⟩]) "u" 20 = [] := by
  have h := clear_then_window_empty [⟨"u", "user", "a"⟩, ⟨"u", "assistant", "b"⟩]
    "u" 20 [⟨"w", "user", "c"⟩] (by decide)
  exact ⟨h.1, h.2.1⟩

/-- C7: erasing a user with no stored history is a no-op (the store is
unchanged, so `clear_memory` does not fail), and erasing one user leaves
every other user's rows — hence their messages and their order —
unchanged. -/
theorem clear_memory_noop_and_frame (s : Store) (u v : String) :
    (userRows s u = [] → clear_memory s u = s)
    ∧ (v ≠ u → userRows (clear_memory s u) v = userRows s v
        ∧ userHistory (clear_memory s u) v = userHistory s v) := by
  constructor
  · intro h
    have hall := List.filter_eq_nil_iff.mp h
    apply List.filter_eq_self.mpr
    intro r hr
    have hne : ¬ r.user_id = u := by simpa using hall r hr
    simp [hne]
  · intro hvu
    have hrows : userRows (clear_memory s u) v = userRows s v := by
      simp only [userRows, clear_memory, List.filter_filter]
      apply List.filter_congr
      intro r _
      by_cases h : r.user_id = v
      · simp [h, hvu]
      · simp [h]
    exact ⟨hrows, by simp [userHistory, hrows]⟩

/-- C7 witness: erasing an absent user leaves a one-row store untouched. -/
theorem clear_memory_noop_and_frame_witness :
    clear_memory [⟨"v", "user", "a"⟩] "u" = [⟨"v", "user", "a"⟩]
    ∧ userRows (clear_memory [⟨"v", "user", "a"⟩] "u") "v"
        = userRows [⟨"v", "user", "a"⟩] "v" := by
  have h := clear_memory_noop_and_frame [⟨"v", "user", "a"⟩] "u" "v"
  exact ⟨h.1 (by decide), (h.2 (by decide)).1⟩

/-- C8: a voice-reply request for a user whose window is empty produces the
caller-visible no-content reply ("Нет ответа") and submits nothing to the
speech-synthesis service. -/
theorem tts_empty_window_no_call (synth : String → Bool) (s : Store)
    (uid : String) (h : load_memory s uid 20 = []) :
    tts_handler synth s uid = (.noContent, []) := by
  simp [tts_handler, h]

/-- C8 witness: a store holding only another user's row. -/
theorem tts_empty_window_no_call_witness :
    tts_handler (fun _ => true) [⟨"w", "user", "a"⟩] "u" = (.noContent, []) :=
  tts_empty_window_no_call (fun _ => true) [⟨"w", "user", "a"⟩] "u" rfl

/-- The store of the C9 counterexample: a failed turn left a trailing
role-`user` row after an earlier assistant answer. -/
def lastAnyRoleStore : Store :=
  [⟨"u", "assistant", "Earlier answer"⟩, ⟨"u", "user", "Hi"⟩]

/-- C9 counterexample: on a non-empty history whose last stored message has
role `user`, `tts_handler` submits that user text ("Hi") to the synthesis
service, which differs from the content of the last stored assistant
message ("Earlier answer"). -/
theorem tts_last_any_role_cex :
    (tts_handler (fun _ => true) lastAnyRoleStore "u").2 = ["Hi"]
    ∧ ((userRows lastAnyRoleStore "u").filter
        (fun r => r.role = "assistant")).map Row.content = ["Earlier answer"]
    ∧ ("Hi" : String) ≠ "Earlier answer" :=
  ⟨rfl, rfl, by decide⟩

/-- C9 amended: the text submitted to the speech-synthesis service is the
content of the last stored message of that user REGARDLESS of its role —
equal to the last assistant message only when an assistant message is in
fact last (as after a successful turn) — and with empty history nothing is
submitted. -/
theorem tts_submits_last_stored_message (synth : String → Bool) (s : Store)
    (uid : String) :
    (tts_handler synth s uid).2
      = ((userHistory s uid).getLast?.map Message.content).toList := by
  by_cases h : load_memory s uid 20 = []
  · have hh : userHistory s uid = [] :=
      (load_memory_eq_nil_iff s uid 20 (by omega)).mp h
    simp [tts_handler, h, hh]
  · have hlast : (load_memory s uid 20).getLast? = (userHistory s uid).getLast? := by
      rw [load_memory_eq_drop]
      apply getLast?_drop_of_lt
      have hne : userHistory s uid ≠ [] := by
        intro hnil
        exact h ((load_memory_eq_nil_iff s uid 20 (by omega)).mpr hnil)
      have hpos : 0 < (userHistory s uid).length := List.length_pos.mpr hne
      omega
    have hsub : (tts_handler synth s uid).2
        = [((load_memory s uid 20).getLast h).content] := by
      simp only [tts_handler, dif_neg h]
      by_cases hs : synth ((load_memory s uid 20).getLast h).content <;> simp [hs]
    rw [hsub, ← hlast, List.getLast?_eq_getLast _ h]
    rfl

end TelegramGPTBot
